import Mathlib

/-!
Verification development for the Atlas-ai backend gateway
(`src/api/index.js`, `src/server/routes/ai.js`).

The JavaScript code is shallowly embedded: JSON/JavaScript values become an
inductive `Json` type, network effects become explicit behaviour oracles
passed to the embedded handlers, and thrown exceptions become `Except`
errors.  Machine-level details that no claim depends on (exact engine
error-message texts, UTF-16 vs codepoint string lengths) are modelled by
fixed strings / codepoint lengths, with a comment at each such point.
-/

namespace Atlas

/-- JavaScript/JSON values as produced by `JSON.parse` / `response.json()`.
Numbers are kept as their raw literal text (no claim computes with them). -/
inductive Json where
  | null
  | bool (b : Bool)
  | num (raw : String)
  | str (s : String)
  | arr (elems : List Json)
  | obj (fields : List (String × Json))

/-- JavaScript truthiness.  Numeric truthiness is approximated on the raw
literal (no claim exercises numeric truthiness). -/
def Json.truthy : Json → Bool
  | .null => false
  | .bool b => b
  | .num raw => !(raw = "0" || raw = "-0" || raw = "0.0")
  | .str s => !(s = "")
  | .arr _ => true
  | .obj _ => true

/-- Property access `j.k` on a non-null base: on an object, the first
binding of the key; `undefined` (`none`) on arrays/primitives, which have
none of the keys the code reads.  Every use sits either behind a `?.`
guard (which admits no null base) or after an explicit null test at the
call site that models the source's unguarded access throwing a
`TypeError` on a null base. -/
def Json.getField (j : Json) (k : String) : Option Json :=
  match j with
  | .obj fields =>
    match fields.find? (fun p => p.1 = k) with
    | some p => some p.2
    | none => none
  | _ => none

/-- Index access `j[n]`: element of an array, `undefined` otherwise. -/
def Json.index (j : Json) (n : Nat) : Option Json :=
  match j with
  | .arr elems => elems.get? n
  | _ => none

/-- Optional chaining `v?.…`: short-circuits to `undefined` on
`undefined`/`null`, otherwise applies the next access. -/
def optChain (v : Option Json) (f : Json → Option Json) : Option Json :=
  match v with
  | none => none
  | some .null => none
  | some j => f j

/-- JavaScript `a || b` where `a` may be `undefined` (`none`). -/
def jsOr (a : Option Json) (b : Json) : Json :=
  match a with
  | some v => if v.truthy then v else b
  | none => b

/-- `data.candidates?.[0]?.content?.parts?.[0]?.text` — the single-prompt
(Gemini) field path, from `callGemini` in both handlers, evaluated on a
non-null payload.  Note there is no `|| ""` default: the value is
returned as-is and may be `undefined`. -/
def callGeminiExtract (data : Json) : Option Json :=
  optChain (optChain (optChain (optChain (data.getField "candidates")
    (fun c => c.index 0)) (fun e => e.getField "content"))
    (fun c => c.getField "parts")) (fun p =>
      optChain (p.index 0) (fun e => e.getField "text"))

/-- `REQUEST_TIMEOUT` in `src/server/routes/ai.js` (9 s). -/
def REQUEST_TIMEOUT : Nat := 9000

/-- `REQUEST_TIMEOUT` in `src/api/index.js` (9.5 s, just under Vercel's
10 s ceiling). -/
def REQUEST_TIMEOUT_STANDALONE : Nat := 9500

/-- An HTTP response as observed by the routes: `ok` flag, status, and the
body as parsed by `response.json()` (`none` when the body is not JSON). -/
structure HttpResponse where
  ok : Bool
  status : Nat
  jsonBody : Option Json

/-- Behaviour of one outbound `fetch`: it either settles (with a response
or a network rejection) after `elapsedMs`, or never settles. -/
inductive FetchBehavior where
  | completes (resp : HttpResponse) (elapsedMs : Nat)
  | networkError (msg : String) (elapsedMs : Nat)
  | hangs

/-- The two rejection shapes a `fetchWithTimeout` caller can observe:
the `AbortError` raised by `node-fetch` when the `AbortController` signal
fires, and an ordinary network `FetchError`. -/
inductive FetchError where
  | abortError
  | fetchError (msg : String)
deriving DecidableEq

/-- The deadline elapses before the call settles. -/
def FetchBehavior.deadlineExpires (timeoutMs : Nat) : FetchBehavior → Prop
  | .completes _ t => timeoutMs ≤ t
  | .networkError _ t => timeoutMs ≤ t
  | .hangs => True

instance (timeoutMs : Nat) (b : FetchBehavior) :
    Decidable (b.deadlineExpires timeoutMs) := by
  cases b <;> simp [FetchBehavior.deadlineExpires] <;> infer_instance

/-- `fetchWithTimeout` (identical in both files): a timer aborts the
controller after `timeoutMs`; the `catch` block clears the timer and
rethrows the error unchanged, so a fired signal surfaces as the
`AbortError` and an earlier network rejection as its own error. -/
def fetchWithTimeout (timeoutMs : Nat) (b : FetchBehavior) :
    Except FetchError HttpResponse :=
  match b with
  | .completes r t => if t < timeoutMs then .ok r else .error .abortError
  | .networkError m t =>
    if t < timeoutMs then .error (.fetchError m) else .error .abortError
  | .hangs => .error .abortError

/-! ## RequestGate: `verifyToken` and `validateAIRequest` (src/api/index.js) -/

/-- Outcome of the `verifyToken` middleware: either `next()` is called with
`req.user` set, or the request is rejected with a status and message. -/
inductive AuthOutcome where
  | proceed (uid email : String)
  | reject (status : Nat) (error : String)
deriving DecidableEq

/-- `authHeader.startsWith('Bearer ')`, computed on the character
list so that concrete instances evaluate by kernel reduction. -/
def headerHasBearer (h : String) : Bool :=
  "Bearer ".data.isPrefixOf h.data

/-- `verifyToken` in `src/api/index.js`.  `firebaseInitialized` models
`admin.apps.length > 0`; `verifyIdToken` models
`admin.auth().verifyIdToken` (`none` = the promise rejected).
`authHeader.split(' ')[1]` is total here because the `Bearer ` check
guarantees a space. -/
def verifyToken (firebaseInitialized : Bool)
    (verifyIdToken : String → Option (String × String))
    (authHeader : Option String) : AuthOutcome :=
  if !firebaseInitialized then
    .proceed "anonymous" "guest@atlas.app"
  else
    match authHeader with
    | none => .reject 401 "Unauthorized: No token provided"
    | some h =>
      if !(headerHasBearer h) then
        .reject 401 "Unauthorized: No token provided"
      else
        match verifyIdToken ((h.splitOn " ").getD 1 "") with
        | some (uid, email) => .proceed uid email
        | none => .reject 403 "Forbidden: Invalid token"

/-- One element of `chatSchema.messages`. -/
structure ChatMessage where
  role : String
  content : String
deriving DecidableEq

/-- The body shape `chatSchema` is applied to. -/
structure ChatBody where
  messages : List ChatMessage
  model : Option String
deriving DecidableEq

/-- `z.enum(['system', 'user', 'assistant'])`. -/
def validRoles : List String := ["system", "user", "assistant"]

/-- Per-message check of `chatSchema`: role enum plus
`z.string().min(1).max(20000)` on the content.  String length is modelled
as codepoint count (zod counts UTF-16 units; no claim distinguishes
them). -/
def chatMessageOk (m : ChatMessage) : Bool :=
  decide (m.role ∈ validRoles) &&
    (decide (1 ≤ m.content.length) && decide (m.content.length ≤ 20000))

/-- `chatSchema.parse`: `z.array(...).min(1)` over the messages
(`model` is `z.string().optional()` and always passes here since the field
is typed). -/
def chatSchemaParse (b : ChatBody) : Option ChatBody :=
  if decide (1 ≤ b.messages.length) && b.messages.all chatMessageOk then
    some b
  else none

/-- `validateAIRequest` in `src/api/index.js`: any `chatSchema.parse`
failure is caught and turned into the one generic 400 response. -/
def validateAIRequest (b : ChatBody) : Except (Nat × String) ChatBody :=
  match chatSchemaParse b with
  | some parsed => .ok parsed
  | none => .error (400, "Invalid input data")

/-! ## Server `/groq` route (src/server/routes/ai.js) -/

/-- A route's HTTP answer: status code plus JSON body. -/
structure RouteResponse where
  status : Nat
  body : Json

/-- What the upstream Groq call does, as seen by the `/groq` route:
the fetch either throws (network error / abort) or yields a response whose
body parses to `jsonBody` (`none` = `response.json()` rejects). -/
inductive UpstreamBehavior where
  | throws (msg : String)
  | responds (status : Nat) (jsonBody : Option Json)

/-- Modelled stand-in for the engine's `response.json()` rejection
message. -/
def bodyParseErrMsg : String := "invalid json response body"

/-- `router.post('/groq')` in `src/server/routes/ai.js` after the
middleware: the response body is parsed and sent with `res.json(data)`
(default status 200).  `response.ok` and `response.status` are never
consulted. -/
def groqRouteHandler (hasGroqKey : Bool) (upstream : UpstreamBehavior) :
    RouteResponse :=
  if !hasGroqKey then ⟨500, .obj [("error", .str "Groq Key Missing")]⟩
  else
    match upstream with
    | .throws msg => ⟨500, .obj [("error", .str msg)]⟩
    | .responds _ none => ⟨500, .obj [("error", .str bodyParseErrMsg)]⟩
    | .responds _ (some data) => ⟨200, data⟩

/-! ## VersionCascade: `callGemini` (src/server/routes/ai.js) -/

/-- What one Gemini cascade attempt does, as the `try` block observes it:
a throw (fetch rejection — timeout/network — a `response.json()`
rejection, or the `TypeError` of the return expression on a 2xx `null`
body, all caught by the same `catch`), a 2xx response with parsed body
`data` on which the return expression evaluates (so `data` is not
`null`), or a non-2xx response (which the code falls through without
reading). -/
inductive GeminiAttempt where
  | throws (msg : String)
  | respOk (data : Json)
  | respNotOk

/-- The `versions` list in `callGemini`. -/
def geminiVersions : List String := ["v1beta", "v1"]

/-- The `models` list in `callGemini`. -/
def geminiModels (modelName : String) : List String :=
  [modelName, "gemini-1.5-flash-latest", "gemini-pro"]

/-- The ordered (API version, model) pairs the nested loops visit. -/
def geminiCascadeList (modelName : String) : List (String × String) :=
  geminiVersions.flatMap fun ver =>
    (geminiModels modelName).map fun mod => (ver, mod)

/-- The loop body of `callGemini`: on `response.ok` return the extracted
text immediately; on a throw set `lastError`; on a non-ok response fall
through with `lastError` unchanged.  After exhaustion, throw
`lastError.message` or the literal `"Gemini inaccessible"` when no
attempt threw. -/
def runGeminiCascade (oracle : String → String → GeminiAttempt) :
    List (String × String) → Option String → Except String (Option Json)
  | [], lastError =>
    .error (match lastError with
      | some m => m
      | none => "Gemini inaccessible")
  | p :: rest, lastError =>
    match oracle p.1 p.2 with
    | .respOk data => .ok (callGeminiExtract data)
    | .respNotOk => runGeminiCascade oracle rest lastError
    | .throws m => runGeminiCascade oracle rest (some m)

/-- `callGemini(prompt, modelName = "gemini-1.5-flash")` in
`src/server/routes/ai.js`, abstracted over the per-attempt network
behaviour. -/
def callGemini (oracle : String → String → GeminiAttempt)
    (modelName : String) : Except String (Option Json) :=
  runGeminiCascade oracle (geminiCascadeList modelName) none

/-- The last `lastError` message the loop would have recorded: the message
of the last throwing attempt (non-ok responses record nothing). -/
def lastThrownMsg (oracle : String → String → GeminiAttempt)
    (l : List (String × String)) : Option String :=
  l.foldl (fun acc p =>
    match oracle p.1 p.2 with
    | .throws m => some m
    | _ => acc) none

/-! ## Podcast provider selection and routes -/

/-- Which provider credentials are present (`GROQ_API_KEY`,
`GEMINI_API_KEY` non-empty after trim). -/
structure ProviderEnv where
  groqKey : Bool
  geminiKey : Bool

/-- Provider-selection block of `router.post('/podcast')` in
`src/server/routes/ai.js`, abstracted over the two provider calls:
`gem` is what `callGemini` does (`.ok` may carry `none` because the
extracted text may be `undefined`), `groq` what `callGroq` does (its
result is always a string thanks to `|| ""`).  Returns the providers
dispatched, in order, and either `(resultText, usedProvider)` or the
propagated thrown message. -/
def podcastSelect (env : ProviderEnv) (provider : String)
    (gem : Except String (Option String)) (groq : Except String String) :
    List String × Except String (Option String × String) :=
  if provider = "groq" ∨ (provider = "auto" ∧ env.geminiKey = false) then
    match groq with
    | .ok t => (["groq"], .ok (some t, "groq"))
    | .error m => (["groq"], .error m)
  else
    match gem with
    | .ok t => (["gemini"], .ok (t, "gemini"))
    | .error gemMsg =>
      if env.groqKey then
        match groq with
        | .ok t => (["gemini", "groq"], .ok (some t, "groq"))
        | .error m => (["gemini", "groq"], .error m)
      else (["gemini"], .error gemMsg)

/-- Provider-selection block of `app.post('/api/ai/podcast')` in
`src/api/index.js`: same guard, but the `else` branch has no
`try`/`catch` — a Gemini failure propagates with no fallback. -/
def podcastSelectStandalone (env : ProviderEnv) (provider : String)
    (gem : Except String (Option String)) (groq : Except String String) :
    List String × Except String (Option String × String) :=
  if provider = "groq" ∨ (provider = "auto" ∧ env.geminiKey = false) then
    match groq with
    | .ok t => (["groq"], .ok (some t, "groq"))
    | .error m => (["groq"], .error m)
  else
    match gem with
    | .ok t => (["gemini"], .ok (t, "gemini"))
    | .error m => (["gemini"], .error m)

/-! ## ResponseNormalizer: cleanup and JSON recovery

The routes post-process the provider text with
`resultText.replace(/```json|```/g, '').trim()` and then a strict
`JSON.parse` with a regex-based recovery step.  Strings are handled as
`List Char`. -/

/-- JSON / `String.prototype.trim` whitespace (the characters the inputs
here can contain). -/
def isWsChar (c : Char) : Bool :=
  c = ' ' || c = '\t' || c = '\n' || c = '\r'

/-- Skip leading whitespace. -/
def skipWs (cs : List Char) : List Char := cs.dropWhile isWsChar

/-- The seven characters of a fenced-JSON opener. -/
def fenceJson : List Char := ['\x60', '\x60', '\x60', 'j', 's', 'o', 'n']

/-- The three characters of a bare fence. -/
def fenceBare : List Char := ['\x60', '\x60', '\x60']

/-- Fuelled worker for `stripFences`: each step consumes at least one
character, so any fuel at least the list length computes the full scan
(structural recursion on the fuel keeps concrete instances
kernel-reducible). -/
def stripFencesAux : Nat → List Char → List Char
  | 0, l => l
  | _ + 1, [] => []
  | fuel + 1, c :: cs =>
    if (c :: cs).take 7 = fenceJson then
      stripFencesAux fuel ((c :: cs).drop 7)
    else if (c :: cs).take 3 = fenceBare then
      stripFencesAux fuel ((c :: cs).drop 3)
    else c :: stripFencesAux fuel cs

/-- `.replace(/```json|```/g, '')`: global left-to-right scan deleting
each occurrence, preferring the longer alternative first, exactly as the
regex alternation does. -/
def stripFences (l : List Char) : List Char :=
  stripFencesAux l.length l

/-- Drop trailing whitespace. -/
def dropTrailingWs (cs : List Char) : List Char :=
  (cs.reverse.dropWhile isWsChar).reverse

/-- `String.prototype.trim()`. -/
def trimChars (cs : List Char) : List Char :=
  dropTrailingWs (skipWs cs)

/-- `cs` starts with the literal `pat`; on success return the rest. -/
def expectChars (pat : List Char) (cs : List Char) : Option (List Char) :=
  if cs.take pat.length = pat then some (cs.drop pat.length) else none

/-- Characters a JSON number literal may continue with (approximation of
the JSON number grammar; no claim exercises malformed numbers). -/
def numChar (c : Char) : Bool :=
  c.isDigit || c = '-' || c = '+' || c = '.' || c = 'e' || c = 'E'

/-- Body of a JSON string after the opening quote: characters up to the
closing quote, decoding the simple escapes.  `\uXXXX` escapes are not
decoded (rejected); no claim exercises them. -/
def parseStrChars : Nat → List Char → Option (List Char × List Char)
  | 0, _ => none
  | _ + 1, [] => none
  | f + 1, c :: rest =>
    if c = '"' then some ([], rest)
    else if c = '\\' then
      match rest with
      | [] => none
      | e :: rest2 =>
        let dec : Option Char :=
          if e = '"' then some '"'
          else if e = '\\' then some '\\'
          else if e = '/' then some '/'
          else if e = 'n' then some '\n'
          else if e = 't' then some '\t'
          else if e = 'r' then some '\r'
          else if e = 'b' then some '\x08'
          else if e = 'f' then some '\x0c'
          else none
        match dec with
        | none => none
        | some d =>
          match parseStrChars f rest2 with
          | some (s, r) => some (d :: s, r)
          | none => none
    else
      match parseStrChars f rest with
      | some (s, r) => some (c :: s, r)
      | none => none

mutual

/-- One JSON value, fuelled recursive-descent model of `JSON.parse`. -/
def parseJsonValue : Nat → List Char → Option (Json × List Char)
  | 0, _ => none
  | f + 1, cs =>
    match skipWs cs with
    | [] => none
    | c :: rest =>
      if c = '"' then
        match parseStrChars f rest with
        | some (s, r) => some (.str (String.mk s), r)
        | none => none
      else if c = '[' then parseArrFirst f rest
      else if c = '\x7b' then parseObjFirst f rest
      else if c = 'n' then
        match expectChars ['u', 'l', 'l'] rest with
        | some r => some (.null, r)
        | none => none
      else if c = 't' then
        match expectChars ['r', 'u', 'e'] rest with
        | some r => some (.bool true, r)
        | none => none
      else if c = 'f' then
        match expectChars ['a', 'l', 's', 'e'] rest with
        | some r => some (.bool false, r)
        | none => none
      else if c = '-' ∨ c.isDigit then
        some (.num (String.mk (c :: rest.takeWhile numChar)),
          rest.dropWhile numChar)
      else none

/-- Array contents after the opening `[`: empty array or first element. -/
def parseArrFirst : Nat → List Char → Option (Json × List Char)
  | 0, _ => none
  | f + 1, cs =>
    match skipWs cs with
    | ']' :: rest => some (.arr [], rest)
    | other =>
      match parseJsonValue f other with
      | some (v, r) => parseArrTail f [v] r
      | none => none

/-- Array contents after an element: `,` and another element, or `]`. -/
def parseArrTail : Nat → List Json → List Char →
    Option (Json × List Char)
  | 0, _, _ => none
  | f + 1, acc, cs =>
    match skipWs cs with
    | ']' :: rest => some (.arr acc.reverse, rest)
    | ',' :: rest =>
      match parseJsonValue f rest with
      | some (v, r) => parseArrTail f (v :: acc) r
      | none => none
    | _ => none

/-- Object contents after the opening brace: empty object or first
member. -/
def parseObjFirst : Nat → List Char → Option (Json × List Char)
  | 0, _ => none
  | f + 1, cs =>
    match skipWs cs with
    | '\x7d' :: rest => some (.obj [], rest)
    | other =>
      match parseObjMember f other with
      | some (kv, r) => parseObjTail f [kv] r
      | none => none

/-- Object contents after a member: `,` and another member, or the
closing brace. -/
def parseObjTail : Nat → List (String × Json) → List Char →
    Option (Json × List Char)
  | 0, _, _ => none
  | f + 1, acc, cs =>
    match skipWs cs with
    | '\x7d' :: rest => some (.obj acc.reverse, rest)
    | ',' :: rest =>
      match parseObjMember f rest with
      | some (kv, r) => parseObjTail f (kv :: acc) r
      | none => none
    | _ => none

/-- One `"key": value` member. -/
def parseObjMember : Nat → List Char →
    Option ((String × Json) × List Char)
  | 0, _ => none
  | f + 1, cs =>
    match skipWs cs with
    | '"' :: rest =>
      match parseStrChars f rest with
      | some (k, r) =>
        match skipWs r with
        | ':' :: r2 =>
          match parseJsonValue f r2 with
          | some (v, r3) => some ((String.mk k, v), r3)
          | none => none
        | _ => none
      | none => none
    | _ => none

end

/-- `JSON.parse`: one value consuming the whole input (up to surrounding
whitespace).  The fuel `2 * length + 4` dominates the recursion depth,
which advances by at most two per consumed character. -/
def jsonParse (cs : List Char) : Option Json :=
  match parseJsonValue (2 * cs.length + 4) cs with
  | some (v, rest) => if skipWs rest = [] then some v else none
  | none => none

/-- First suffix starting with the regex prefix `\[\s*\{` (leftmost
match start of `/\[\s*\{.*\}\s*\]/s`). -/
def findArrStart : List Char → Option (List Char)
  | [] => none
  | c :: rest =>
    if c = '[' ∧ (rest.dropWhile isWsChar).head? = some '\x7b' then
      some (c :: rest)
    else findArrStart rest

/-- On a reversed tail, the reversed suffix up to the last `\}\s*\]` close
(the greedy end of `.*\}\s*\]`). -/
def revCloseSuffix : List Char → Option (List Char)
  | [] => none
  | c :: rest =>
    if c = ']' ∧ (rest.dropWhile isWsChar).head? = some '\x7d' then
      some (c :: rest)
    else revCloseSuffix rest

/-- `cleanedText.match(/\[\s*\{.*\}\s*\]/s)?.[0]`: the greedy match from
the leftmost `[` followed by `\s*\{` through the last `\}\s*\]`.
(When the leftmost start has no close after it, no later start has one
either, so scanning once from the first start is the regex's result.) -/
def matchArrayOfObjects (s : List Char) : Option (List Char) :=
  match findArrStart s with
  | none => none
  | some [] => none
  | some (_ :: rest) =>
    let ws := rest.takeWhile isWsChar
    match rest.dropWhile isWsChar with
    | '\x7b' :: t =>
      match revCloseSuffix t.reverse with
      | some revFrag => some ('[' :: ws ++ '\x7b' :: revFrag.reverse)
      | none => none
    | _ => none

/-- `clean.match(/\{.*\}/s)?.[0]` in the standalone handler: from the
first `{` to the last `}` (greedy, dot-matches-newline), if the `}` comes
after the `{`. -/
def matchBraceSpan (s : List Char) : Option (List Char) :=
  match s.dropWhile (fun c => !(c = '\x7b')) with
  | [] => none
  | c :: t =>
    match revCloseSuffixBrace t.reverse with
    | some revFrag => some (c :: revFrag.reverse)
    | none => none
where
  /-- Reversed suffix up to the last `}`. -/
  revCloseSuffixBrace : List Char → Option (List Char)
    | [] => none
    | c :: rest =>
      if c = '\x7d' then some (c :: rest) else revCloseSuffixBrace rest

/-- Modelled stand-in for the engine's `JSON.parse` `SyntaxError`
message (its exact text is engine-specific; no claim depends on it). -/
def jsonSyntaxErrMsg : String := "Unexpected token in JSON"

/-- `finalJson.script || finalJson` — the value placed in the response's
`script` field. -/
def scriptOf (finalJson : Json) : Json :=
  jsOr (finalJson.getField "script") finalJson

/-- Parse-and-recover stage of `router.post('/podcast')` applied to the
already-cleaned text: strict `JSON.parse`; on failure try the
`/\[\s*\{.*\}\s*\]/s` recovery (wrapping the fragment as
`{ script: … }`), else throw `"AI returned invalid JSON structure"`.
The result is the response's `script` value. -/
def parseCleaned (clean : List Char) : Except String Json :=
  match jsonParse clean with
  | some v => .ok (scriptOf v)
  | none =>
    match matchArrayOfObjects clean with
    | some frag =>
      match jsonParse frag with
      | some v => .ok (scriptOf (.obj [("script", v)]))
      | none => .error jsonSyntaxErrMsg
    | none => .error "AI returned invalid JSON structure"

/-- Cleanup-and-parse block of `router.post('/podcast')`
(src/server/routes/ai.js): strip fences, trim, then parse/recover. -/
def parsePipeline (cs : List Char) : Except String Json :=
  parseCleaned (trimChars (stripFences cs))

/-- Cleanup-and-parse block of `app.post('/api/ai/podcast')`
(src/api/index.js) applied to the cleaned text:
`JSON.parse(clean.match(/\{.*\}/s)?.[0] || clean)`. -/
def parseCleanedStandalone (clean : List Char) : Except String Json :=
  match jsonParse ((matchBraceSpan clean).getD clean) with
  | some v => .ok (scriptOf v)
  | none => .error jsonSyntaxErrMsg

/-- Cleanup-and-parse block of the standalone podcast handler. -/
def parsePipelineStandalone (cs : List Char) : Except String Json :=
  parseCleanedStandalone (trimChars (stripFences cs))

/-- The leading prose used when exercising the fenced-output tolerance
of the recovery pipeline. -/
def proseLead : List Char := "Here is the script:\n".data

/-- A provider answer that wraps the JSON text `A` in leading prose and
a ```` ```json ```` code fence. -/
def wrapProse (A : List Char) : List Char :=
  proseLead ++ (fenceJson ++ ('\n' :: (A ++ '\n' :: fenceBare)))

/-! ## The podcast routes end-to-end -/

/-- Modelled stand-in for the `TypeError` thrown by
`resultText.length` / `resultText.replace` when `callGemini` returned
`undefined`. -/
def undefinedTextErrMsg : String :=
  "Cannot read properties of undefined (reading 'length')"

/-- The answer of a podcast route: `res.json({script, provider})` on
success, `res.status(500).json({error: 'Generation Failed', message})`
on any thrown error. -/
inductive PodcastResult where
  | success (script : Json) (provider : String)
  | failure (status : Nat) (error message : String)

/-- `router.post('/podcast')` in `src/server/routes/ai.js` after
`verifyToken`: provider selection with auto-fallback, then the cleanup
and recovery parse.  Returns the providers dispatched in order together
with the HTTP-level outcome. -/
def podcastRoute (env : ProviderEnv) (provider : String)
    (gem : Except String (Option String)) (groq : Except String String) :
    List String × PodcastResult :=
  match podcastSelect env provider gem groq with
  | (ds, .error m) => (ds, .failure 500 "Generation Failed" m)
  | (ds, .ok (none, _)) =>
    (ds, .failure 500 "Generation Failed" undefinedTextErrMsg)
  | (ds, .ok (some t, prov)) =>
    match parsePipeline t.data with
    | .ok script => (ds, .success script prov)
    | .error m => (ds, .failure 500 "Generation Failed" m)

/-! ## The standalone podcast route (src/api/index.js) -/

/-- The `syllabus` object the prompt templates dereference. -/
structure Syllabus where
  subject : String
  topic : String
  level : String

/-- The request body of `/api/ai/podcast`, as destructured by
`const { content, topics, mode, syllabus, provider = 'auto' } = req.body`
(each field may be absent). -/
structure PodcastBody where
  content : Option String
  topics : Option String
  mode : Option String
  syllabus : Option Syllabus
  provider : Option String

/-- Modelled stand-in for the `TypeError` message of
`syllabus.subject` with `syllabus === undefined`. -/
def syllabusTypeErrMsg : String :=
  "Cannot read properties of undefined (reading 'subject')"

/-- The template-literal body of the standalone handler, up to the point
where it either throws or embeds the request data: with
`mode === 'syllabus'` it dereferences `syllabus.subject` (a `TypeError`
when `syllabus` is absent — there is no schema validation on this route);
otherwise it embeds `content?.substring(0, 8000)` (the string
`"undefined"` when `content` is absent, as the template literal
stringifies it) and `topics || 'General'`. -/
def buildPromptStandalone (b : PodcastBody) : Except String String :=
  if b.mode = some "syllabus" then
    match b.syllabus with
    | none => .error syllabusTypeErrMsg
    | some s =>
      .ok ("You are an expert podcast script writer. "
        ++ "Create a highly engaging dialogue behind Alex and Sam. Topic: "
        ++ s.subject ++ " - " ++ s.topic ++ " Focal Points: "
        ++ (b.topics.getD "General"))
  else
    .ok ("You are an expert podcast script writer. "
      ++ "Create a highly engaging dialogue behind Alex and Sam. Content: "
      ++ (match b.content with
          | some c => String.mk (c.data.take 8000)
          | none => "undefined")
      ++ " Focal Points: " ++ (b.topics.getD "General"))

/-- `app.post('/api/ai/podcast')` in `src/api/index.js` after
`verifyToken` (the route registers no validation middleware): build the
prompt (which can throw), select a provider with no fallback, clean up
and parse.  Any thrown error is answered as
`res.status(500).json({error: message})`. -/
def podcastStandaloneRoute (env : ProviderEnv) (b : PodcastBody)
    (gem : Except String (Option String)) (groq : Except String String) :
    List String × RouteResponse :=
  match buildPromptStandalone b with
  | .error m => ([], ⟨500, .obj [("error", .str m)]⟩)
  | .ok _ =>
    match podcastSelectStandalone env (b.provider.getD "auto") gem groq with
    | (ds, .error m) => (ds, ⟨500, .obj [("error", .str m)]⟩)
    | (ds, .ok (none, _)) =>
      (ds, ⟨500, .obj [("error", .str undefinedTextErrMsg)]⟩)
    | (ds, .ok (some t, prov)) =>
      match parsePipelineStandalone t.data with
      | .ok script =>
        (ds, ⟨200, .obj [("script", script), ("provider", .str prov)]⟩)
      | .error m => (ds, ⟨500, .obj [("error", .str m)]⟩)

/-! # Theorems -/

/-- Claim C1: for every provider call dispatched with a deadline, if the
deadline expires the in-flight operation is cancelled and the outcome is
the distinct `AbortError` (the Timeout failure), never the generic
network `FetchError`, so callers and fallback logic can distinguish a
too-slow call from a rejected one. -/
theorem C1_deadline_reported_as_timeout (timeoutMs : Nat)
    (b : FetchBehavior) (h : b.deadlineExpires timeoutMs) :
    fetchWithTimeout timeoutMs b = .error .abortError ∧
      ∀ m : String, FetchError.abortError ≠ FetchError.fetchError m := by
  refine ⟨?_, fun m hm => FetchError.noConfusion hm⟩
  cases b with
  | completes r t =>
    simp only [FetchBehavior.deadlineExpires] at h
    simp [fetchWithTimeout, Nat.not_lt.mpr h]
  | networkError m t =>
    simp only [FetchBehavior.deadlineExpires] at h
    simp [fetchWithTimeout, Nat.not_lt.mpr h]
  | hangs => rfl

/-- Witness for C1 at the server's 9000 ms deadline and a call that never
settles. -/
theorem C1_witness :
    fetchWithTimeout REQUEST_TIMEOUT .hangs = .error .abortError ∧
      ∀ m : String, FetchError.abortError ≠ FetchError.fetchError m :=
  C1_deadline_reported_as_timeout REQUEST_TIMEOUT .hangs trivial

/-- Claim C7: with the verification subsystem uninitialized,
authentication always yields the anonymous principal; initialized, a
missing or non-`Bearer ` header is rejected 401 and a token failing
verification is rejected 403. -/
theorem C7_request_gate (verify : String → Option (String × String)) :
    (∀ h, verifyToken false verify h =
      .proceed "anonymous" "guest@atlas.app") ∧
    (verifyToken true verify none =
      .reject 401 "Unauthorized: No token provided") ∧
    (∀ s, headerHasBearer s = false →
      verifyToken true verify (some s) =
        .reject 401 "Unauthorized: No token provided") ∧
    (∀ s, headerHasBearer s = true →
      verify ((s.splitOn " ").getD 1 "") = none →
      verifyToken true verify (some s) =
        .reject 403 "Forbidden: Invalid token") := by
  refine ⟨fun h => rfl, rfl, fun s hs => ?_, fun s hs hv => ?_⟩
  · simp [verifyToken, hs]
  · simp only [List.getD_eq_getElem?_getD] at hv
    simp [verifyToken, hs, hv]

/-- Witness for C7 at concrete headers and an always-failing verifier. -/
theorem C7_witness :
    verifyToken false (fun _ => none) none =
      .proceed "anonymous" "guest@atlas.app" ∧
    verifyToken true (fun _ => none) none =
      .reject 401 "Unauthorized: No token provided" ∧
    verifyToken true (fun _ => none) (some "Token abc") =
      .reject 401 "Unauthorized: No token provided" ∧
    verifyToken true (fun _ => none) (some "Bearer abc") =
      .reject 403 "Forbidden: Invalid token" :=
  ⟨(C7_request_gate (fun _ => none)).1 none,
   (C7_request_gate (fun _ => none)).2.1,
   (C7_request_gate (fun _ => none)).2.2.1 "Token abc" (by decide),
   (C7_request_gate (fun _ => none)).2.2.2 "Bearer abc" (by decide) rfl⟩

/-- Claim C8: validation succeeds exactly when the message sequence is
non-empty, every role is system/user/assistant, and every content length
is between 1 and 20000; any violation yields the single generic
`(400, "Invalid input data")` response. -/
theorem C8_validation (b : ChatBody) :
    (validateAIRequest b = .ok b ↔
      b.messages ≠ [] ∧ ∀ m ∈ b.messages,
        m.role ∈ validRoles ∧
          1 ≤ m.content.length ∧ m.content.length ≤ 20000) ∧
    (validateAIRequest b = .ok b ∨
      validateAIRequest b = .error (400, "Invalid input data")) := by
  unfold validateAIRequest chatSchemaParse
  by_cases hc : (decide (1 ≤ b.messages.length)
      && b.messages.all chatMessageOk) = true
  · rw [if_pos hc]
    refine ⟨⟨fun _ => ?_, fun _ => rfl⟩, Or.inl rfl⟩
    simp only [Bool.and_eq_true, decide_eq_true_eq, List.all_eq_true,
      chatMessageOk] at hc
    obtain ⟨h1, h2⟩ := hc
    refine ⟨?_, fun m hm => ?_⟩
    · intro hnil
      rw [hnil] at h1
      simp at h1
    · exact h2 m hm
  · rw [if_neg hc]
    refine ⟨⟨fun h => Except.noConfusion h, fun h => absurd ?_ hc⟩,
      Or.inr rfl⟩
    simp only [Bool.and_eq_true, decide_eq_true_eq, List.all_eq_true,
      chatMessageOk]
    obtain ⟨h1, h2⟩ := h
    exact ⟨List.length_pos.mpr h1, h2⟩

/-- Witness for C8: a valid single-turn body passes; a body with an
invalid role gets the generic 400. -/
theorem C8_witness :
    validateAIRequest ⟨[⟨"user", "hi"⟩], none⟩ =
      .ok ⟨[⟨"user", "hi"⟩], none⟩ ∧
    validateAIRequest ⟨[⟨"alien", "hi"⟩], none⟩ =
      .error (400, "Invalid input data") := by
  constructor
  · exact (C8_validation ⟨[⟨"user", "hi"⟩], none⟩).1.mpr (by decide)
  · rcases (C8_validation ⟨[⟨"alien", "hi"⟩], none⟩).2 with h | h
    · exact absurd ((C8_validation ⟨[⟨"alien", "hi"⟩], none⟩).1.mp h)
        (by decide)
    · exact h

/-- Claim C9: in the server chat-completion (`/groq`) route, a non-2xx
upstream response has its body parsed and forwarded to the caller with
HTTP status 200 — the `ok` flag is never checked, so an upstream error
payload is returned as a success-shaped response. -/
theorem C9_upstream_error_forwarded (status : Nat) (d : Json)
    (hstatus : ¬(200 ≤ status ∧ status < 300)) :
    groqRouteHandler true (.responds status (some d)) = ⟨200, d⟩ := rfl

/-- Witness for C9 at an upstream 500 with an error-shaped body. -/
theorem C9_witness :
    groqRouteHandler true
        (.responds 500 (some (.obj [("error", .str "rate limited")]))) =
      ⟨200, .obj [("error", .str "rate limited")]⟩ :=
  C9_upstream_error_forwarded 500 (.obj [("error", .str "rate limited")])
    (by omega)

/-- Claim C10: the standalone podcast endpoint applies no schema
validation (any body shape reaches the handler after authentication); a
body with `mode: 'syllabus'` and no `syllabus` object throws a
`TypeError` while building the prompt, surfaced as a 500 — not a 400 —
before any provider is dispatched. -/
theorem C10_no_validation_syllabus_typeerror (env : ProviderEnv)
    (c t p : Option String) (gem : Except String (Option String))
    (groq : Except String String) :
    podcastStandaloneRoute env ⟨c, t, some "syllabus", none, p⟩ gem groq =
      ([], ⟨500, .obj [("error", .str syllabusTypeErrMsg)]⟩) := rfl

/-- Witness for C10 at a concrete environment and body. -/
theorem C10_witness :
    podcastStandaloneRoute ⟨true, true⟩
        ⟨none, none, some "syllabus", none, none⟩
        (.ok (some "x")) (.ok "x") =
      ([], ⟨500, .obj [("error", .str syllabusTypeErrMsg)]⟩) :=
  C10_no_validation_syllabus_typeerror ⟨true, true⟩ none none none
    (.ok (some "x")) (.ok "x")

/-- The HTTP outcome of the server podcast route does not change which
providers were dispatched: the dispatch list is the selection's. -/
theorem podcastRoute_dispatch (env : ProviderEnv) (p : String)
    (gem : Except String (Option String)) (groq : Except String String) :
    (podcastRoute env p gem groq).1 = (podcastSelect env p gem groq).1 := by
  unfold podcastRoute
  rcases hs : podcastSelect env p gem groq with ⟨ds, r⟩
  cases r with
  | error m => rfl
  | ok v =>
    rcases v with ⟨t?, prov⟩
    rcases t? with _ | t
    · rfl
    · rcases hp : parsePipeline t.data with m | s <;> simp [hp]

/-- Claim C2, counterexample: in the server route a request with the
concrete provider preference `gemini` (not auto) still falls back to
Groq when the Gemini call fails and a Groq key is present — two
providers are dispatched. -/
theorem C2_cex :
    (podcastRoute ⟨true, true⟩ "gemini" (.error "gemini down")
        (.ok "not json")).1 = ["gemini", "groq"] := rfl

/-- Claim C2 (amended): a concrete `groq` preference dispatches exactly
groq with no fallback in both handlers; in the standalone handler a
concrete `gemini` preference also dispatches exactly gemini; in the
server route a concrete `gemini` preference dispatches only gemini when
no Groq key is present, but falls back to groq (two dispatches) when the
Gemini call fails and a Groq key is present. -/
theorem C2_amended (env : ProviderEnv)
    (gem : Except String (Option String)) (groq : Except String String) :
    ((podcastRoute env "groq" gem groq).1 = ["groq"]) ∧
    ((podcastSelectStandalone env "groq" gem groq).1 = ["groq"]) ∧
    ((podcastSelectStandalone env "gemini" gem groq).1 = ["gemini"]) ∧
    (env.groqKey = false →
      (podcastRoute env "gemini" gem groq).1 = ["gemini"]) ∧
    (env.groqKey = true → ∀ m, gem = .error m →
      (podcastRoute env "gemini" gem groq).1 = ["gemini", "groq"]) := by
  refine ⟨?_, ?_, ?_, fun hnk => ?_, fun hk m hm => ?_⟩
  · rw [podcastRoute_dispatch]
    unfold podcastSelect
    rw [if_pos (Or.inl rfl)]
    cases groq <;> rfl
  · unfold podcastSelectStandalone
    rw [if_pos (Or.inl rfl)]
    cases groq <;> rfl
  · unfold podcastSelectStandalone
    rw [if_neg (by simp)]
    cases gem <;> rfl
  · rw [podcastRoute_dispatch]
    unfold podcastSelect
    rw [if_neg (by simp)]
    cases gem with
    | ok t => rfl
    | error m => simp [hnk]
  · rw [podcastRoute_dispatch]
    unfold podcastSelect
    rw [if_neg (by simp), hm]
    simp only [hk, if_true]
    cases groq <;> rfl

/-- Witness for C2 (amended) at concrete environments and outcomes. -/
theorem C2_amended_witness :
    ((podcastRoute ⟨true, true⟩ "groq" (.ok none) (.ok "x")).1
      = ["groq"]) ∧
    ((podcastSelectStandalone ⟨true, true⟩ "groq" (.ok none)
        (.ok "x")).1 = ["groq"]) ∧
    ((podcastSelectStandalone ⟨true, true⟩ "gemini" (.error "down")
        (.ok "x")).1 = ["gemini"]) ∧
    ((podcastRoute ⟨false, true⟩ "gemini" (.error "down") (.ok "x")).1
      = ["gemini"]) ∧
    ((podcastRoute ⟨true, true⟩ "gemini" (.error "down") (.ok "x")).1
      = ["gemini", "groq"]) :=
  ⟨(C2_amended ⟨true, true⟩ (.ok none) (.ok "x")).1,
   (C2_amended ⟨true, true⟩ (.ok none) (.ok "x")).2.1,
   (C2_amended ⟨true, true⟩ (.error "down") (.ok "x")).2.2.1,
   (C2_amended ⟨false, true⟩ (.error "down") (.ok "x")).2.2.2.1 rfl,
   (C2_amended ⟨true, true⟩ (.error "down") (.ok "x")).2.2.2.2 rfl
     "down" rfl⟩

/-- Claim C3: in auto mode with a Gemini key, the secondary provider
(Groq) is dispatched only when the primary (Gemini) call itself
hard-fails (throws); when the primary call succeeds but its text is
structurally unparseable, no other provider is attempted and the
structural failure is reported directly as the 500 cause. -/
theorem C3_structural_error_not_retried (env : ProviderEnv)
    (gem : Except String (Option String)) (groq : Except String String)
    (hkey : env.geminiKey = true) :
    (∀ t m, gem = .ok (some t) → parsePipeline t.data = .error m →
      podcastRoute env "auto" gem groq =
        (["gemini"], .failure 500 "Generation Failed" m)) ∧
    ("groq" ∈ (podcastRoute env "auto" gem groq).1 →
      ∃ m, gem = .error m) := by
  have hcond : ¬("auto" = "groq" ∨ ("auto" = "auto" ∧
      env.geminiKey = false)) := by
    simp [hkey]
  constructor
  · intro t m hgem hparse
    unfold podcastRoute podcastSelect
    rw [if_neg hcond, hgem]
    simp only
    rw [hparse]
  · intro hgroq
    rw [podcastRoute_dispatch] at hgroq
    unfold podcastSelect at hgroq
    rw [if_neg hcond] at hgroq
    cases gem with
    | ok t => simp at hgroq
    | error m => exact ⟨m, rfl⟩

/-- Witness for C3: Gemini succeeds with unparseable text; only gemini
is dispatched and the structural error is the reported cause. -/
theorem C3_witness :
    podcastRoute ⟨true, true⟩ "auto" (.ok (some "oops")) (.ok "x") =
      (["gemini"],
        .failure 500 "Generation Failed"
          "AI returned invalid JSON structure") :=
  (C3_structural_error_not_retried ⟨true, true⟩ (.ok (some "oops"))
    (.ok "x") rfl).1 "oops" "AI returned invalid JSON structure" rfl rfl

/-- When no cascade entry yields a 2xx response, the loop exhausts the
list and throws the last recorded throw message (non-2xx responses
record nothing), or the fixed fallback text when nothing threw. -/
theorem runGeminiCascade_exhausted (oracle : String → String → GeminiAttempt)
    (l : List (String × String)) (acc : Option String)
    (h : ∀ p ∈ l, ∀ d, oracle p.1 p.2 ≠ .respOk d) :
    runGeminiCascade oracle l acc =
      .error ((l.foldl (fun a p =>
        match oracle p.1 p.2 with
        | .throws m => some m
        | _ => a) acc).getD "Gemini inaccessible") := by
  induction l generalizing acc with
  | nil => cases acc <;> rfl
  | cons p rest ih =>
    have hrest : ∀ q ∈ rest, ∀ d, oracle q.1 q.2 ≠ .respOk d :=
      fun q hq => h q (List.mem_cons_of_mem p hq)
    cases ho : oracle p.1 p.2 with
    | respOk d => exact absurd ho (h p (List.mem_cons_self p rest) d)
    | respNotOk =>
      rw [List.foldl_cons]
      simp only [runGeminiCascade, ho]
      exact ih acc hrest
    | throws m =>
      rw [List.foldl_cons]
      simp only [runGeminiCascade, ho]
      exact ih (some m) hrest

/-- The cascade short-circuits at the first 2xx response, returning its
extracted text immediately. -/
theorem runGeminiCascade_first_ok (oracle : String → String → GeminiAttempt)
    (pre : List (String × String)) (p : String × String)
    (post : List (String × String)) (acc : Option String) (d : Json)
    (hpre : ∀ q ∈ pre, ∀ e, oracle q.1 q.2 ≠ .respOk e)
    (hp : oracle p.1 p.2 = .respOk d) :
    runGeminiCascade oracle (pre ++ p :: post) acc =
      .ok (callGeminiExtract d) := by
  induction pre generalizing acc with
  | nil => simp only [List.nil_append, runGeminiCascade, hp]
  | cons q rest ih =>
    have hrest : ∀ r ∈ rest, ∀ e, oracle r.1 r.2 ≠ .respOk e :=
      fun r hr => hpre r (List.mem_cons_of_mem q hr)
    cases ho : oracle q.1 q.2 with
    | respOk e => exact absurd ho (hpre q (List.mem_cons_self q rest) e)
    | respNotOk =>
      simp only [List.cons_append, runGeminiCascade, ho]
      exact ih acc hrest
    | throws m =>
      simp only [List.cons_append, runGeminiCascade, ho]
      exact ih (some m) hrest

/-- Claim C4, counterexample: when every cascade attempt fails with a
non-2xx response (six observed upstream failures), the returned error is
the fixed message `Gemini inaccessible` — it does not wrap the last
observed failure. -/
theorem C4_cex :
    callGemini (fun _ _ => .respNotOk) "gemini-1.5-flash" =
      .error "Gemini inaccessible" := rfl

/-- Claim C4 (amended): the cascade stops early only on the first 2xx
call, returning its text immediately; when every pair is tried without
success it returns an error wrapping the last *thrown* failure among
the attempts (non-2xx responses are not recorded), or the fixed message
`Gemini inaccessible` when no attempt threw. -/
theorem C4_amended (oracle : String → String → GeminiAttempt)
    (modelName : String) :
    (∀ pre p post d,
      geminiCascadeList modelName = pre ++ p :: post →
      (∀ q ∈ pre, ∀ e, oracle q.1 q.2 ≠ .respOk e) →
      oracle p.1 p.2 = .respOk d →
      callGemini oracle modelName = .ok (callGeminiExtract d)) ∧
    ((∀ q ∈ geminiCascadeList modelName, ∀ e,
        oracle q.1 q.2 ≠ .respOk e) →
      callGemini oracle modelName =
        .error ((lastThrownMsg oracle
          (geminiCascadeList modelName)).getD "Gemini inaccessible")) := by
  constructor
  · intro pre p post d heq hpre hp
    unfold callGemini
    rw [heq]
    exact runGeminiCascade_first_ok oracle pre p post none d hpre hp
  · intro h
    unfold callGemini lastThrownMsg
    exact runGeminiCascade_exhausted oracle _ none h

/-- Witness for C4 (amended): the first attempt throws, the remaining
five return non-2xx; the exhausted cascade reports the first throw, the
last recorded one. -/
theorem C4_witness :
    callGemini (fun v m =>
        if v = "v1beta" ∧ m = "gemini-1.5-flash" then .throws "boom"
        else .respNotOk) "gemini-1.5-flash" = .error "boom" := by
  have h := (C4_amended (fun v m =>
      if v = "v1beta" ∧ m = "gemini-1.5-flash" then .throws "boom"
      else .respNotOk) "gemini-1.5-flash").2 ?_
  · rw [h]
    rfl
  · intro q hq e hcontra
    split at hcontra <;> exact GeminiAttempt.noConfusion hcontra

/-- Any fuel at least the input length computes the complete fence
scan. -/
theorem stripFencesAux_over (f : Nat) :
    ∀ l : List Char, l.length ≤ f → stripFencesAux f l = stripFences l := by
  induction f using Nat.strong_induction_on with
  | _ f ih =>
    intro l hf
    cases l with
    | nil => cases f <;> rfl
    | cons c cs =>
      cases f with
      | zero => simp at hf
      | succ f =>
        have hlen : cs.length ≤ f := by
          simp only [List.length_cons] at hf
          omega
        unfold stripFences
        rw [List.length_cons]
        by_cases h7 : (c :: cs).take 7 = fenceJson
        · have hlen7 : ((c :: cs).drop 7).length ≤ cs.length := by
            simp only [List.length_drop, List.length_cons]
            omega
          rw [show stripFencesAux (f + 1) (c :: cs) =
              stripFencesAux f ((c :: cs).drop 7) from by
            simp only [stripFencesAux]
            rw [if_pos h7]]
          rw [show stripFencesAux (cs.length + 1) (c :: cs) =
              stripFencesAux cs.length ((c :: cs).drop 7) from by
            simp only [stripFencesAux]
            rw [if_pos h7]]
          rw [ih f (Nat.lt_succ_self f) _ (le_trans hlen7 hlen),
            ih cs.length (Nat.lt_succ_of_le hlen) _ hlen7]
        · by_cases h3 : (c :: cs).take 3 = fenceBare
          · have hlen3 : ((c :: cs).drop 3).length ≤ cs.length := by
              simp only [List.length_drop, List.length_cons]
              omega
            rw [show stripFencesAux (f + 1) (c :: cs) =
                stripFencesAux f ((c :: cs).drop 3) from by
              simp only [stripFencesAux]
              rw [if_neg h7, if_pos h3]]
            rw [show stripFencesAux (cs.length + 1) (c :: cs) =
                stripFencesAux cs.length ((c :: cs).drop 3) from by
              simp only [stripFencesAux]
              rw [if_neg h7, if_pos h3]]
            rw [ih f (Nat.lt_succ_self f) _ (le_trans hlen3 hlen),
              ih cs.length (Nat.lt_succ_of_le hlen) _ hlen3]
          · rw [show stripFencesAux (f + 1) (c :: cs) =
                c :: stripFencesAux f cs from by
              simp only [stripFencesAux]
              rw [if_neg h7, if_neg h3]]
            rw [show stripFencesAux (cs.length + 1) (c :: cs) =
                c :: stripFencesAux cs.length cs from by
              simp only [stripFencesAux]
              rw [if_neg h7, if_neg h3]]
            rw [ih f (Nat.lt_succ_self f) cs hlen]
            rfl

/-- Step equation of the fence scan: a `\x60\x60\x60json` occurrence is
deleted. -/
theorem stripFences_step7 (c : Char) (cs : List Char)
    (h7 : (c :: cs).take 7 = fenceJson) :
    stripFences (c :: cs) = stripFences ((c :: cs).drop 7) := by
  have hlen7 : ((c :: cs).drop 7).length ≤ cs.length := by
    simp only [List.length_drop, List.length_cons]
    omega
  unfold stripFences
  rw [List.length_cons]
  rw [show stripFencesAux (cs.length + 1) (c :: cs) =
      stripFencesAux cs.length ((c :: cs).drop 7) from by
    simp only [stripFencesAux]
    rw [if_pos h7]]
  rw [stripFencesAux_over cs.length _ hlen7]
  rfl

/-- Step equation of the fence scan: an untouched character is kept. -/
theorem stripFences_step1 (c : Char) (cs : List Char)
    (h7 : (c :: cs).take 7 ≠ fenceJson)
    (h3 : (c :: cs).take 3 ≠ fenceBare) :
    stripFences (c :: cs) = c :: stripFences cs := by
  unfold stripFences
  rw [List.length_cons]
  rw [show stripFencesAux (cs.length + 1) (c :: cs) =
      c :: stripFencesAux cs.length cs from by
    simp only [stripFencesAux]
    rw [if_neg h7, if_neg h3]]

/-- A list whose 7-prefix is a fenced-JSON opener starts with a
backtick. -/
theorem head_of_take7 (l : List Char) (h : l.take 7 = fenceJson) :
    l.head? = some '\x60' := by
  cases l with
  | nil => simp [fenceJson] at h
  | cons c cs =>
    rw [List.take_succ_cons] at h
    rw [show fenceJson = '\x60' :: ['\x60', '\x60', 'j', 's', 'o', 'n']
      from rfl] at h
    injection h with h1 _
    rw [h1]
    rfl

/-- A list whose 3-prefix is a bare fence starts with a backtick. -/
theorem head_of_take3 (l : List Char) (h : l.take 3 = fenceBare) :
    l.head? = some '\x60' := by
  cases l with
  | nil => simp [fenceBare] at h
  | cons c cs =>
    rw [List.take_succ_cons] at h
    rw [show fenceBare = '\x60' :: ['\x60', '\x60'] from rfl] at h
    injection h with h1 _
    rw [h1]
    rfl

/-- The fence scan leaves a backtick-free prefix untouched. -/
theorem stripFences_append_no_bt (xs ys : List Char)
    (hx : '\x60' ∉ xs) :
    stripFences (xs ++ ys) = xs ++ stripFences ys := by
  induction xs with
  | nil => rfl
  | cons c cs ih =>
    have hc : c ≠ '\x60' := fun h => hx (h ▸ List.mem_cons_self c cs)
    have h7 : (c :: (cs ++ ys)).take 7 ≠ fenceJson := by
      intro h
      have := head_of_take7 _ h
      simp only [List.head?_cons, Option.some.injEq] at this
      exact hc this
    have h3 : (c :: (cs ++ ys)).take 3 ≠ fenceBare := by
      intro h
      have := head_of_take3 _ h
      simp only [List.head?_cons, Option.some.injEq] at this
      exact hc this
    rw [List.cons_append, stripFences_step1 c (cs ++ ys) h7 h3,
      ih (fun hm => hx (List.mem_cons_of_mem c hm))]
    rfl

/-- The fence scan is the identity on backtick-free text. -/
theorem stripFences_id_no_bt (xs : List Char) (hx : '\x60' ∉ xs) :
    stripFences xs = xs := by
  have h := stripFences_append_no_bt xs [] hx
  rw [show stripFences ([] : List Char) = [] from rfl,
    List.append_nil] at h
  exact h

/-- The fence scan deletes a leading fenced-JSON opener. -/
theorem stripFences_fenceJson (rest : List Char) :
    stripFences (fenceJson ++ rest) = stripFences rest := by
  have h7 : (fenceJson ++ rest).take 7 = fenceJson := by
    rw [show (7 : Nat) = fenceJson.length from rfl]
    exact List.take_left fenceJson rest
  have hcons : fenceJson ++ rest =
      '\x60' :: (['\x60', '\x60', 'j', 's', 'o', 'n'] ++ rest) := rfl
  rw [hcons] at h7 ⊢
  rw [stripFences_step7 _ _ h7]
  rfl

/-- Leading whitespace survives nothing: a non-whitespace head is
kept. -/
theorem skipWs_cons (c : Char) (cs : List Char)
    (h : isWsChar c = false) : skipWs (c :: cs) = c :: cs := by
  simp [skipWs, List.dropWhile_cons, h]

/-- A trailing whitespace character is trimmed. -/
theorem dropTrailingWs_ws (xs : List Char) (c : Char)
    (h : isWsChar c = true) :
    dropTrailingWs (xs ++ [c]) = dropTrailingWs xs := by
  simp [dropTrailingWs, List.dropWhile_cons, h]

/-- A non-whitespace last character stops the right trim. -/
theorem dropTrailingWs_not_ws (xs : List Char) (c : Char)
    (h : isWsChar c = false) :
    dropTrailingWs (xs ++ [c]) = xs ++ [c] := by
  simp [dropTrailingWs, List.dropWhile_cons, h]

/-- `JSON.parse` fails whenever the first character is non-whitespace
and starts no JSON value. -/
theorem parseJsonValue_bad_head (f : Nat) (c : Char) (rest : List Char)
    (hws : isWsChar c = false)
    (h1 : c ≠ '"') (h2 : c ≠ '[') (h3 : c ≠ '\x7b') (h4 : c ≠ 'n')
    (h5 : c ≠ 't') (h6 : c ≠ 'f')
    (h7 : ¬(c = '-' ∨ c.isDigit = true)) :
    parseJsonValue f (c :: rest) = none := by
  cases f with
  | zero => rfl
  | succ f =>
    simp only [parseJsonValue, skipWs_cons c rest hws]
    rw [if_neg h1, if_neg h2, if_neg h3, if_neg h4, if_neg h5, if_neg h6,
      if_neg h7]

/-- `jsonParse` fails on the same inputs. -/
theorem jsonParse_bad_head (c : Char) (rest : List Char)
    (hws : isWsChar c = false)
    (h1 : c ≠ '"') (h2 : c ≠ '[') (h3 : c ≠ '\x7b') (h4 : c ≠ 'n')
    (h5 : c ≠ 't') (h6 : c ≠ 'f')
    (h7 : ¬(c = '-' ∨ c.isDigit = true)) :
    jsonParse (c :: rest) = none := by
  unfold jsonParse
  rw [parseJsonValue_bad_head _ c rest hws h1 h2 h3 h4 h5 h6 h7]

/-- The leftmost `\[\s*\{` start lies past any prefix without `[`. -/
theorem findArrStart_append (xs ys : List Char) (hx : '[' ∉ xs) :
    findArrStart (xs ++ ys) = findArrStart ys := by
  induction xs with
  | nil => rfl
  | cons c cs ih =>
    have hc : c ≠ '[' := fun h => hx (h ▸ List.mem_cons_self c cs)
    rw [List.cons_append]
    simp only [findArrStart]
    rw [if_neg (fun hand => hc hand.1)]
    exact ih (fun hm => hx (List.mem_cons_of_mem c hm))

/-- A `[{` opener is itself the leftmost `\[\s*\{` start. -/
theorem findArrStart_at_open (t : List Char) :
    findArrStart ('[' :: '\x7b' :: t) = some ('[' :: '\x7b' :: t) := by
  simp only [findArrStart]
  rw [if_pos]
  refine ⟨trivial, ?_⟩
  rw [List.dropWhile_cons, if_neg (by decide)]
  rfl

/-- The last `\}\s*\]` close of a reversed `…}]` tail is immediate. -/
theorem revCloseSuffix_at_close (r : List Char) :
    revCloseSuffix (']' :: '\x7d' :: r) = some (']' :: '\x7d' :: r) := by
  simp only [revCloseSuffix]
  rw [if_pos]
  refine ⟨trivial, ?_⟩
  rw [List.dropWhile_cons, if_neg (by decide)]
  rfl

/-- On prose (without `[`) followed by a `[{…}]` block, the greedy
array-of-objects regex extracts exactly the block. -/
theorem matchArrayOfObjects_prose (P t : List Char) (hP : '[' ∉ P) :
    matchArrayOfObjects (P ++ '[' :: '\x7b' :: (t ++ ['\x7d', ']'])) =
      some ('[' :: '\x7b' :: (t ++ ['\x7d', ']'])) := by
  unfold matchArrayOfObjects
  rw [findArrStart_append P _ hP, findArrStart_at_open]
  simp only
  rw [show List.takeWhile isWsChar ('\x7b' :: (t ++ ['\x7d', ']'])) = []
    from by rw [List.takeWhile_cons, if_neg (by decide)]]
  rw [show List.dropWhile isWsChar ('\x7b' :: (t ++ ['\x7d', ']'])) =
      '\x7b' :: (t ++ ['\x7d', ']']) from by
    rw [List.dropWhile_cons, if_neg (by decide)]]
  simp only
  rw [show (t ++ ['\x7d', ']']).reverse = ']' :: '\x7d' :: t.reverse
    from by simp]
  rw [revCloseSuffix_at_close]
  simp

/-- Trimming the cleaned prose-plus-block text removes exactly the
trailing newline left by the deleted closing fence. -/
theorem trimChars_prose_block (t : List Char) :
    trimChars (proseLead ++
        '\n' :: (('[' :: '\x7b' :: (t ++ ['\x7d', ']'])) ++ ['\n'])) =
      proseLead ++ '\n' :: ('[' :: '\x7b' :: (t ++ ['\x7d', ']'])) := by
  unfold trimChars
  have h1 : proseLead ++
      '\n' :: (('[' :: '\x7b' :: (t ++ ['\x7d', ']'])) ++ ['\n']) =
      'H' :: ("ere is the script:\n".data ++
        ('\n' :: (('[' :: '\x7b' :: (t ++ ['\x7d', ']'])) ++ ['\n']))) :=
    rfl
  rw [h1, skipWs_cons _ _ (by decide), ← h1]
  have h2 : proseLead ++
      '\n' :: (('[' :: '\x7b' :: (t ++ ['\x7d', ']'])) ++ ['\n']) =
      (proseLead ++ '\n' :: ('[' :: '\x7b' :: (t ++ ['\x7d', ']'])))
        ++ ['\n'] := by
    simp
  rw [h2, dropTrailingWs_ws _ _ (by decide)]
  have h3 : proseLead ++ '\n' :: ('[' :: '\x7b' :: (t ++ ['\x7d', ']'])) =
      (proseLead ++ '\n' :: ('[' :: '\x7b' :: (t ++ ['\x7d']))) ++ [']'] := by
    simp
  rw [h3, dropTrailingWs_not_ws _ _ (by decide), ← h3]

/-- Claim C5, counterexample: the empty JSON array (a valid array of
zero speaker/text objects) parses bare to the empty script, but its
fenced-and-prose-wrapped form fails the recovery pipeline (the recovery
regex requires at least one object), so the two results differ. -/
theorem C5_cex :
    parsePipeline "[]".data = .ok (Json.arr []) ∧
    parsePipeline
        "Here is the script:\n\x60\x60\x60json\n[]\n\x60\x60\x60".data =
      .error "AI returned invalid JSON structure" := ⟨rfl, rfl⟩

/-- Claim C5 (amended): for every non-empty JSON array of objects —
source text of shape `[{…}]`, backtick-free, strictly parsing to
`arr l` — the fenced-and-prose-wrapped text parses through the recovery
pipeline to the same structured script as the bare text, namely `arr l`.
(The empty array must be excluded: its wrapped form fails while its bare
form succeeds.) -/
theorem C5_amended (t : List Char) (l : List Json)
    (hparse : jsonParse ('[' :: '\x7b' :: (t ++ ['\x7d', ']'])) =
      some (Json.arr l))
    (hbt : '\x60' ∉ '[' :: '\x7b' :: (t ++ ['\x7d', ']'])) :
    parsePipeline (wrapProse ('[' :: '\x7b' :: (t ++ ['\x7d', ']']))) =
      parsePipeline ('[' :: '\x7b' :: (t ++ ['\x7d', ']'])) ∧
    parsePipeline ('[' :: '\x7b' :: (t ++ ['\x7d', ']'])) =
      .ok (Json.arr l) := by
  have hbare : parsePipeline ('[' :: '\x7b' :: (t ++ ['\x7d', ']'])) =
      .ok (Json.arr l) := by
    unfold parsePipeline
    rw [stripFences_id_no_bt _ hbt]
    have htrim : trimChars ('[' :: '\x7b' :: (t ++ ['\x7d', ']'])) =
        '[' :: '\x7b' :: (t ++ ['\x7d', ']']) := by
      unfold trimChars
      rw [skipWs_cons _ _ (by decide)]
      have hsplit : '[' :: '\x7b' :: (t ++ ['\x7d', ']']) =
          ('[' :: '\x7b' :: (t ++ ['\x7d'])) ++ [']'] := by
        simp
      rw [hsplit, dropTrailingWs_not_ws _ _ (by decide), ← hsplit]
    rw [htrim]
    unfold parseCleaned
    rw [hparse]
    rfl
  refine ⟨?_, hbare⟩
  rw [hbare]
  unfold parsePipeline
  have hstrip : stripFences
      (wrapProse ('[' :: '\x7b' :: (t ++ ['\x7d', ']']))) =
      proseLead ++
        '\n' :: (('[' :: '\x7b' :: (t ++ ['\x7d', ']'])) ++ ['\n']) := by
    unfold wrapProse
    rw [stripFences_append_no_bt proseLead _ (by decide),
      stripFences_fenceJson,
      show ('\n' :: (('[' :: '\x7b' :: (t ++ ['\x7d', ']']))
          ++ '\n' :: fenceBare)) =
        ['\n'] ++ (('[' :: '\x7b' :: (t ++ ['\x7d', ']']))
          ++ '\n' :: fenceBare) from rfl,
      stripFences_append_no_bt ['\n'] _ (by decide),
      stripFences_append_no_bt _ _ hbt,
      show stripFences ('\n' :: fenceBare) = ['\n'] from rfl]
    rfl
  rw [hstrip, trimChars_prose_block]
  unfold parseCleaned
  rw [show proseLead ++ '\n' :: ('[' :: '\x7b' :: (t ++ ['\x7d', ']'])) =
      'H' :: ("ere is the script:\n".data ++
        ('\n' :: ('[' :: '\x7b' :: (t ++ ['\x7d', ']'])))) from rfl]
  rw [jsonParse_bad_head 'H' _ (by decide) (by decide) (by decide)
    (by decide) (by decide) (by decide) (by decide) (by decide)]
  rw [show ('H' : Char) :: ("ere is the script:\n".data ++
      ('\n' :: ('[' :: '\x7b' :: (t ++ ['\x7d', ']'])))) =
      (proseLead ++ ['\n']) ++ ('[' :: '\x7b' :: (t ++ ['\x7d', ']']))
    from by simp [proseLead]]
  rw [matchArrayOfObjects_prose _ t (by decide)]
  have hfin : (match jsonParse ('[' :: '\x7b' :: (t ++ ['\x7d', ']'])) with
      | some v => Except.ok (scriptOf (Json.obj [("script", v)]))
      | none => (Except.error jsonSyntaxErrMsg : Except String Json)) =
      Except.ok (Json.arr l) := by
    rw [hparse]
    rfl
  exact hfin

/-- Witness for C5 (amended) at a one-object speaker/text array. -/
theorem C5_witness :
    parsePipeline (wrapProse
        ('[' :: '\x7b' ::
          ("\"speaker\":\"Alex\",\"text\":\"hi\"".data ++ ['\x7d', ']']))) =
      parsePipeline ('[' :: '\x7b' ::
        ("\"speaker\":\"Alex\",\"text\":\"hi\"".data ++ ['\x7d', ']'])) ∧
    parsePipeline ('[' :: '\x7b' ::
        ("\"speaker\":\"Alex\",\"text\":\"hi\"".data ++ ['\x7d', ']'])) =
      .ok (Json.arr [Json.obj
        [("speaker", Json.str "Alex"), ("text", Json.str "hi")]]) :=
  C5_amended "\"speaker\":\"Alex\",\"text\":\"hi\"".data
    [Json.obj [("speaker", Json.str "Alex"), ("text", Json.str "hi")]]
    (by rfl) (by decide)

end Atlas
